import Mathlib

/-!
Verification of the generic job-execution/caching engine `_executor`
(src/ggmap/analyses.py, lines 2041-2246) against its design document.

The engine's argument values, signature computation, cache lookup,
workspace discovery, staging, submission and persistence are embedded
shallowly below; external effects (filesystem, scheduler, hooks) are
supplied through an explicit environment record and the engine emits an
event trace recording every side effect it performs.
-/

namespace GGMap

/-- A pairwise-distance structure: an identifier list together with the
payload matrix aligned to it (models `skbio.stats.distance.DistanceMatrix`,
whose entries are addressed through the id index). -/
structure DistanceMatrix where
  ids : List String
  data : List (List Int)
deriving DecidableEq

/-- Lookup of the distance between two identifiers, through their index in
`ids` (models `dm[i, j]`, i.e. `dm.data[idx i][idx j]`). -/
def DistanceMatrix.get (d : DistanceMatrix) (i j : String) : Int :=
  match d.ids.indexOf? i, d.ids.indexOf? j with
  | some a, some b => (d.data.getD a []).getD b 0
  | _, _ => 0

/-- A semantic argument value: scalar, string, tabular structure, or a
distance-matrix structure (the only runtime type `_executor` special-cases
when canonicalizing for the cache signature, analyses.py:2127). -/
inductive Value where
  | int : Int → Value
  | str : String → Value
  | table : List (List Int) → Value
  | dm : DistanceMatrix → Value
deriving DecidableEq

/-- Whether a value is matrix-like, models `type(v) == DistanceMatrix`
(analyses.py:2127). -/
def Value.isDM : Value → Bool
  | Value.dm _ => true
  | _ => false

/-- Lexicographic less-or-equal on character lists by code point, the
order Python uses to compare strings. -/
def charListLeb : List Char → List Char → Bool
  | [], _ => true
  | _ :: _, [] => false
  | a :: as, b :: bs =>
    if a.toNat < b.toNat then true
    else if b.toNat < a.toNat then false
    else charListLeb as bs

/-- Lexicographic string comparison by code point. -/
def strLeb (a b : String) : Bool :=
  charListLeb a.data b.data

/-- The string order as a relation. -/
def strLe (a b : String) : Prop :=
  strLeb a b = true

instance : DecidableRel strLe := fun a b =>
  inferInstanceAs (Decidable (strLeb a b = true))

/-- Identifier list in ascending order, models `sorted(dm.ids)`
(analyses.py:2130). -/
def sortedIds (d : DistanceMatrix) : List String :=
  List.insertionSort strLe d.ids

/-- Payload reordered to the sorted identifier order, models
`dm.filter(sorted(dm.ids)).data` (analyses.py:2130). -/
def canonData (d : DistanceMatrix) : List (List Int) :=
  (sortedIds d).map (fun i => (sortedIds d).map (fun j => d.get i j))

/-- Canonical form of a value for hashing: a distance matrix is replaced
by its id-sorted payload, every other value is left alone
(analyses.py:2126-2130). -/
def canonValue : Value → Value
  | Value.dm d => Value.table (canonData d)
  | v => v

/-- Deterministic serialization of a single value, modelling the `str()`
rendering used by `str(_input)` at analyses.py:2133. -/
def encodeValue : Value → String
  | Value.int i => "i" ++ toString i
  | Value.str s => "s" ++ s
  | Value.table m => "t" ++ toString m
  | Value.dm d => "d" ++ toString d.ids ++ toString d.data

/-- Serialization of one key/value item of the argument mapping. -/
def encodePair (p : String × Value) : String :=
  p.1 ++ ": " ++ encodeValue p.2

/-- Order on mapping items used by `sorted(cache_arguments.items())`
(analyses.py:2132): items compare through their serialized form. -/
def pairLe (p q : String × Value) : Prop :=
  strLe (encodePair p) (encodePair q)

instance : DecidableRel pairLe := fun p q =>
  inferInstanceAs (Decidable (strLeb (encodePair p) (encodePair q) = true))

/-- The argument mapping with every matrix-like value replaced by its
canonical form, as fed into the hash (analyses.py:2126-2132). -/
def hashedArgs (args : List (String × Value)) : List (String × Value) :=
  args.map (fun p => (p.1, canonValue p.2))

/-- Items sorted deterministically, models
`collections.OrderedDict(sorted(cache_arguments.items()))`
(analyses.py:2132). -/
def sortedItems (l : List (String × Value)) : List (String × Value) :=
  List.insertionSort pairLe l

/-- Deterministic serialization of the sorted mapping, modelling
`str(_input)` (analyses.py:2133-2134). -/
def encodeItems (l : List (String × Value)) : String :=
  String.intercalate ", " (l.map encodePair)

/-- The `hashlib.md5(...).hexdigest()` digest (analyses.py:2133-2134),
modelled as a deterministic digest into a slash-free decimal token; the
engine and the claims depend only on the digest being a deterministic
function of the serialized input. -/
def md5hex (s : String) : String :=
  toString (s.data.foldl (fun h c => (h * 31 + c.toNat) % 4294967296) 5381)

/-- Cache-store directory name (analyses.py:2105). -/
def DIR_CACHE : String := ".anacache"

/-- Completion-marker name (analyses.py:2106). -/
def FILE_STATUS : String := "finished.info"

/-- Basename of the cache file: hash digest dot step name, that is
`results["file_cache"].split("/")[-1]` (analyses.py:2133-2134, 2166). -/
def sigBasename (jobname : String) (args : List (String × Value)) : String :=
  md5hex (encodeItems (sortedItems (hashedArgs args))) ++ "." ++ jobname

/-- The cache-file path `"%s/%s.%s" % (DIR_CACHE, md5, jobname)`
(analyses.py:2133-2134). -/
def fileCache (jobname : String) (args : List (String × Value)) : String :=
  DIR_CACHE ++ "/" ++ sigBasename jobname args

/-- Entries whose value is matrix-like, saved aside before hashing, models
`cache_args_original` (analyses.py:2125-2130). -/
def cacheArgsOriginal (args : List (String × Value)) : List (String × Value) :=
  args.filter (fun p => p.2.isDM)

/-- Restore one entry from the saved originals after hashing
(analyses.py:2137-2138). -/
def restoreOne (orig : List (String × Value)) (p : String × Value) :
    String × Value :=
  match orig.find? (fun q => q.1 == p.1) with
  | some q => (p.1, q.2)
  | none => p

/-- Convert back the mutated argument mapping after signature computation
(analyses.py:2136-2138). -/
def restoreAfterHash (orig cur : List (String × Value)) :
    List (String × Value) :=
  cur.map (restoreOne orig)

/-- The result bundle `results` built and returned by `_executor`
(analyses.py:2107-2114). -/
structure Bundle (ρ : Type) where
  results : Option ρ
  workdir : Option String
  qid : Option Nat
  file_cache : Option String
  timing : Option (List String)
  cache_version : Nat
  created_on : Option String
  jobname : String
deriving DecidableEq

/-- The caller-chosen template arguments of one `_executor` call
(analyses.py:2041-2046). -/
structure Config where
  jobname : String
  cache_arguments : List (String × Value)
  dry : Bool
  use_grid : Bool
  ppn : Nat
  nocache : Bool
  wait : Bool
  array : Nat
  dirty : Bool

/-- The external world one `_executor` call runs against: filesystem
contents, the cache store, the fresh-directory name `tempfile.mkdtemp`
draws, the submission collaborator, and the four hook collaborators. -/
structure Env (ρ : Type) where
  gettempdir : String
  home : String
  homeTmpExists : Bool
  tmpSubdirs : List String
  filesIn : String → List String
  fileLines : String → List String
  cacheExists : String → Bool
  cacheLoad : String → Bundle ρ
  freshSuffix : String
  clusterQid : Option Nat
  pre_execute : String → List (String × Value) → Except String Unit
  commands : String → Nat → List (String × Value) → List String
  post_execute : String → List (String × Value) → Except String (Option ρ)
  post_cache : Bundle ρ → Bundle ρ
  now : String

/-- One observable side effect performed by the engine. -/
inductive Event (ρ : Type) where
  | createWorkdir : String → Event ρ
  | writeSigMarker : String → String → Event ρ
  | stageHook : String → List (String × Value) → Event ρ
  | buildCommandsHook : String → List (String × Value) → Event ρ
  | submit : List String → Bool → Bool → Nat → Event ρ
  | collectHook : String → List (String × Value) → Event ρ
  | removeWorkdir : String → Event ρ
  | writeCache : String → Bundle ρ → Event ρ
  | postCacheHook : Event ρ
deriving DecidableEq

/-- The exceptions `_executor` can let escape: the missing-grid-root
`ValueError` (analyses.py:2156), an error raised by the stage hook
(analyses.py:2205), or an error raised by the collect hook
(analyses.py:2224). -/
inductive ExecErr where
  | valueError : String → ExecErr
  | stageError : String → ExecErr
  | collectError : String → ExecErr
deriving DecidableEq

/-- Outcome of one engine call: ordered side-effect trace plus either the
returned bundle or the escaped exception. -/
structure ExecResult (ρ : Type) where
  trace : List (Event ρ)
  outcome : Except ExecErr (Bundle ρ)

/-- `str.startswith` of Python, testing the second string as a prefix of
the first. -/
def strStartsWith (s p : String) : Bool :=
  p.data.isPrefixOf s.data

/-- `os.path.join` for an absolute directory and a name. -/
def pathJoin (a b : String) : String :=
  if a.data.getLast? == some '/' then a ++ b else a ++ "/" ++ b

/-- The scratch root searched for workdirs: `$HOME/TMP/` on the grid,
`tempfile.gettempdir()` locally (analyses.py:2152-2154). -/
def dirTmp {ρ : Type} (cfg : Config) (env : Env ρ) : String :=
  if cfg.use_grid then env.home ++ "/TMP/" else env.gettempdir

/-- Cache-file basename of a call. -/
def sigBase (cfg : Config) : String :=
  sigBasename cfg.jobname cfg.cache_arguments

/-- Cache-file path of a call. -/
def fileCacheOf (cfg : Config) : String :=
  fileCache cfg.jobname cfg.cache_arguments

/-- The argument mapping as seen after the convert-back step, which is what
every hook receives (analyses.py:2136-2138, 2205, 2207, 2224). -/
def execArgs (cfg : Config) : List (String × Value) :=
  restoreAfterHash (cacheArgsOriginal cfg.cache_arguments)
    (hashedArgs cfg.cache_arguments)

/-- Scratch directories carrying the step prefix and the identity marker of
the current signature (analyses.py:2160-2167). -/
def potWorkdirs {ρ : Type} (cfg : Config) (env : Env ρ) : List String :=
  (env.tmpSubdirs.filter (fun d =>
      strStartsWith d ("ana_" ++ cfg.jobname ++ "_") &&
      (env.filesIn (pathJoin (dirTmp cfg env) d)).contains (sigBase cfg))).map
    (fun d => pathJoin (dirTmp cfg env) d)

/-- A candidate workdir is finished when the completion marker of every
shard index 1..array is present (analyses.py:2170-2174). -/
def allFinished {ρ : Type} (env : Env ρ) (array : Nat) (wd : String) : Bool :=
  (List.range array).all
    (fun i => (env.filesIn wd).contains (FILE_STATUS ++ toString (i + 1)))

/-- Candidate workdirs all of whose shard markers exist
(analyses.py:2168-2176). -/
def finishedWorkdirs {ρ : Type} (cfg : Config) (env : Env ρ) : List String :=
  (potWorkdirs cfg env).filter (allFinished env cfg.array)

/-- The bundle as first initialized plus the computed cache path; this is
what the pending return hands back (analyses.py:2107-2114, 2133, 2185). -/
def pendingBundle {ρ : Type} (cfg : Config) : Bundle ρ :=
  { results := none, workdir := none, qid := none,
    file_cache := some (fileCacheOf cfg), timing := none,
    cache_version := 20170817, created_on := none, jobname := cfg.jobname }

/-- The freshly created working directory
`tempfile.mkdtemp(prefix='ana_<jobname>_', dir=dir_tmp)`
(analyses.py:2194-2195). -/
def stageWorkdir {ρ : Type} (cfg : Config) (env : Env ρ) : String :=
  pathJoin (dirTmp cfg env) ("ana_" ++ cfg.jobname ++ "_" ++ env.freshSuffix)

/-- The single completion-marker-writing command appended after the hook
commands: `'touch %s/%s${PBS_ARRAYID}' % (workdir, FILE_STATUS)`
(analyses.py:2209-2210). -/
def markerCmd (wd : String) : String :=
  "touch " ++ wd ++ "/" ++ FILE_STATUS ++ "$\x7bPBS_ARRAYID\x7d"

/-- Modelled from the spec: `cluster_run` (ggmap/snippets.py, not under
src/) is the submission collaborator; it returns a job identifier, or the
absence value for dry runs. -/
def clusterRunModel {ρ : Type} (env : Env ρ) (dry : Bool) : Option Nat :=
  if dry then none else env.clusterQid

/-- The full command list handed to the submission collaborator
(analyses.py:2207-2211). -/
def stagedCmds {ρ : Type} (cfg : Config) (env : Env ρ) : List String :=
  env.commands (stageWorkdir cfg env) cfg.ppn (execArgs cfg) ++
    [markerCmd (stageWorkdir cfg env)]

/-- Side effects of a successful STAGE plus submission, in program order
(analyses.py:2195-2218). -/
def stageEvents {ρ : Type} (cfg : Config) (env : Env ρ) : List (Event ρ) :=
  [Event.createWorkdir (stageWorkdir cfg env),
   Event.writeSigMarker (stageWorkdir cfg env) (sigBase cfg),
   Event.stageHook (stageWorkdir cfg env) (execArgs cfg),
   Event.buildCommandsHook (stageWorkdir cfg env) (execArgs cfg),
   Event.submit (stagedCmds cfg env) cfg.dry cfg.wait cfg.array]

/-- The bundle right after submission: workdir and job id filled in
(analyses.py:2195, 2211). -/
def stagedBundle {ρ : Type} (cfg : Config) (env : Env ρ) : Bundle ρ :=
  { pendingBundle cfg with
    workdir := some (stageWorkdir cfg env),
    qid := clusterRunModel env cfg.dry }

/-- Timing lines gathered from all `timing*` files of the workdir
(analyses.py:2229-2233). -/
def timingLines {ρ : Type} (env : Env ρ) (wd : String) : List String :=
  (((env.filesIn wd).filter (fun f => strStartsWith f "timing")).map
    (fun f => env.fileLines (wd ++ "/" ++ f))).flatten

/-- The bundle after a successful collect: result value, creation stamp and
timing lines filled in (analyses.py:2224-2233). -/
def finishBundle {ρ : Type} (env : Env ρ) (wd : String)
    (b : Bundle ρ) (r : Option ρ) : Bundle ρ :=
  { b with
    results := r,
    created_on := some env.now,
    timing := some (timingLines env wd) }

/-- COLLECT then PERSIST: run the collect hook, stamp and gather timing,
delete the workdir only when a result was produced and the keep override is
off, serialize the bundle under the signature, and return it through the
post-cache hook (analyses.py:2224-2246). A collect error escapes before
any deletion or persistence. -/
def collectPhase {ρ : Type} (cfg : Config) (env : Env ρ) (wd : String)
    (pre : List (Event ρ)) (b : Bundle ρ) : ExecResult ρ :=
  match env.post_execute wd (execArgs cfg) with
  | Except.error e =>
      ⟨pre ++ [Event.collectHook wd (execArgs cfg)],
       Except.error (ExecErr.collectError e)⟩
  | Except.ok r =>
      ⟨pre ++ [Event.collectHook wd (execArgs cfg)] ++
        (if r.isSome && !cfg.dirty then [Event.removeWorkdir wd] else []) ++
        [Event.writeCache (fileCacheOf cfg) (finishBundle env wd b r),
         Event.postCacheHook],
       Except.ok (env.post_cache (finishBundle env wd b r))⟩

/-- STAGE then SUBMIT: create a fresh workdir, drop the identity marker,
run the stage hook (whose error escapes), build the commands, append the
single completion-marker command, submit, and either stop (dry or no-wait)
or continue with COLLECT (analyses.py:2192-2246). -/
def stagePhase {ρ : Type} (cfg : Config) (env : Env ρ) : ExecResult ρ :=
  match env.pre_execute (stageWorkdir cfg env) (execArgs cfg) with
  | Except.error e =>
      ⟨[Event.createWorkdir (stageWorkdir cfg env),
        Event.writeSigMarker (stageWorkdir cfg env) (sigBase cfg),
        Event.stageHook (stageWorkdir cfg env) (execArgs cfg)],
       Except.error (ExecErr.stageError e)⟩
  | Except.ok _ =>
      if cfg.dry then ⟨stageEvents cfg env, Except.ok (stagedBundle cfg env)⟩
      else if !cfg.wait then
        ⟨stageEvents cfg env, Except.ok (stagedBundle cfg env)⟩
      else
        collectPhase cfg env (stageWorkdir cfg env) (stageEvents cfg env)
          (stagedBundle cfg env)

/-- The engine `_executor` (analyses.py:2041-2246): compute the signature,
consult the cache store, check the grid scratch root, discover existing
workdirs, and stage/submit/collect/persist as the state machine dictates. -/
def executor {ρ : Type} (cfg : Config) (env : Env ρ) : ExecResult ρ :=
  if env.cacheExists (fileCacheOf cfg) && !cfg.nocache then
    ⟨[Event.postCacheHook],
     Except.ok (env.post_cache (env.cacheLoad (fileCacheOf cfg)))⟩
  else if cfg.use_grid && !env.homeTmpExists then
    ⟨[], Except.error (ExecErr.valueError
      ("Temporary directory " ++ dirTmp cfg env ++
       " does not exist. Please create it and restart."))⟩
  else if ((potWorkdirs cfg env).length != 0) &&
      ((finishedWorkdirs cfg env).length == 0) then
    ⟨[], Except.ok (pendingBundle cfg)⟩
  else
    match finishedWorkdirs cfg env with
    | w :: _ =>
        collectPhase cfg env w []
          { pendingBundle cfg with workdir := some w }
    | [] => stagePhase cfg env

/-- The command list of the first submission event of a trace, if any. -/
def submittedCmdsOf {ρ : Type} (res : ExecResult ρ) : Option (List String) :=
  res.trace.findSome? (fun e =>
    match e with
    | Event.submit l _ _ _ => some l
    | _ => none)

/-- An event either carries no hook arguments or carries exactly the
engine's converted-back argument mapping. -/
def HookArgsOk {ρ : Type} (cfg : Config) (e : Event ρ) : Prop :=
  ∀ w a, (e = Event.stageHook w a ∨ e = Event.buildCommandsHook w a ∨
    e = Event.collectHook w a) → a = execArgs cfg

/-- Two values are equivalent when they are equal or are distance matrices
differing only in the order of their ids while agreeing on every pairwise
distance. -/
inductive ValEquiv : Value → Value → Prop
  | refl (v : Value) : ValEquiv v v
  | dm (d1 d2 : DistanceMatrix) (hperm : d1.ids.Perm d2.ids)
      (hdist : ∀ i ∈ d1.ids, ∀ j ∈ d1.ids, d1.get i j = d2.get i j) :
      ValEquiv (Value.dm d1) (Value.dm d2)

/-- Two argument mappings are equivalent when one is a permutation of a
mapping that agrees with the other key by key up to `ValEquiv`. -/
def ArgsEquiv (a b : List (String × Value)) : Prop :=
  ∃ c, a.Perm c ∧
    List.Forall₂ (fun p q : String × Value => p.1 = q.1 ∧ ValEquiv p.2 q.2) c b

/-! Concrete step configurations and worlds used to exercise the engine
on closed inputs. -/

/-- A bundle standing for an arbitrary previously persisted cache entry. -/
def loadedBundle : Bundle Nat :=
  { results := some 9, workdir := none, qid := none,
    file_cache := some ".anacache/old.j", timing := some [],
    cache_version := 20170817, created_on := some "2017-08-17 00:00:00",
    jobname := "j" }

/-- A baseline configuration: one scalar argument, local execution. -/
def cfgBase : Config :=
  { jobname := "j", cache_arguments := [("x", Value.int 3)], dry := false,
    use_grid := false, ppn := 2, nocache := false, wait := true, array := 1,
    dirty := false }

/-- A baseline world: empty scratch root, empty cache store. -/
def baseEnv : Env Nat :=
  { gettempdir := "/tmp", home := "/home/u", homeTmpExists := true,
    tmpSubdirs := [], filesIn := fun _ => [], fileLines := fun _ => [],
    cacheExists := fun _ => false, cacheLoad := fun _ => loadedBundle,
    freshSuffix := "xyz", clusterQid := some 7,
    pre_execute := fun _ _ => Except.ok (),
    commands := fun _ _ _ => ["echo hi"],
    post_execute := fun _ _ => Except.ok (some 5), post_cache := id,
    now := "2026-10-12 00:00:00" }

/-- Distance matrix with unsorted ids. -/
def dmA : DistanceMatrix := { ids := ["b", "a"], data := [[0, 5], [5, 0]] }

/-- The same distance matrix content with ids sorted. -/
def dmB : DistanceMatrix := { ids := ["a", "b"], data := [[0, 5], [5, 0]] }

/-- Argument mapping using `dmA`. -/
def argsA : List (String × Value) :=
  [("x", Value.int 3), ("m", Value.dm dmA)]

/-- The same mapping with the keys in another order and the matrix id
order permuted. -/
def argsB : List (String × Value) :=
  [("m", Value.dm dmB), ("x", Value.int 3)]

/-- Intermediate mapping relating `argsA` and `argsB`. -/
def argsC : List (String × Value) :=
  [("m", Value.dm dmA), ("x", Value.int 3)]

/-- Configuration for the cache-hit scenario. -/
def cfg2w : Config := cfgBase

/-- World with a populated cache store. -/
def env2w : Env Nat :=
  { baseEnv with cacheExists := fun _ => true }

/-- Configuration for the pending-discovery scenario (caching disabled so
the call must miss the cache). -/
def cfg3w : Config := { cfgBase with nocache := true }

/-- World with one marker-bearing but unfinished scratch directory. -/
def env3w : Env Nat :=
  { baseEnv with
    tmpSubdirs := ["ana_j_a"],
    filesIn := fun _ => [sigBase cfg3w] }

/-- Configuration for the discovery-selection scenario. -/
def cfg4w : Config := { cfgBase with nocache := true }

/-- World with an unrelated directory, an incomplete marker-bearing
directory and a complete marker-bearing directory. -/
def env4w : Env Nat :=
  { baseEnv with
    tmpSubdirs := ["other", "ana_j_b", "ana_j_c"],
    filesIn := fun d =>
      if d = "/tmp/ana_j_b" then [sigBase cfg4w]
      else if d = "/tmp/ana_j_c" then [sigBase cfg4w, "finished.info1"]
      else [] }

/-- Configuration for the collect-persist scenario. -/
def cfg5w : Config := { cfgBase with nocache := true }

/-- World with one finished scratch directory. -/
def env5w : Env Nat :=
  { baseEnv with
    tmpSubdirs := ["ana_j_d"],
    filesIn := fun _ => [sigBase cfg5w, "finished.info1"] }

/-- Grid configuration whose scratch root is missing. -/
def cfg6w : Config := { cfgBase with use_grid := true, nocache := true }

/-- World without the grid scratch root. -/
def env6w : Env Nat := { baseEnv with homeTmpExists := false }

/-- Grid configuration with caching enabled. -/
def cfgC6 : Config := { cfgBase with use_grid := true }

/-- World without the grid scratch root but with a populated cache. -/
def envC6 : Env Nat :=
  { baseEnv with homeTmpExists := false, cacheExists := fun _ => true }

/-- Dry-run configuration reaching the stage path. -/
def cfg7w : Config := { cfgBase with dry := true, nocache := true }

/-- Dry-run two-shard configuration reaching the stage path. -/
def cfgC7 : Config :=
  { cfgBase with dry := true, nocache := true, array := 2 }

/-- No-wait configuration reaching the stage path. -/
def cfg8w : Config := { cfgBase with wait := false, nocache := true }

/-- Configuration for the absent-result persistence scenario. -/
def cfg10w : Config := cfgBase

/-- World with one finished scratch directory whose collect hook yields
the absence value. -/
def env10w : Env Nat :=
  { baseEnv with
    tmpSubdirs := ["ana_j_d"],
    filesIn := fun _ => [sigBase cfg10w, "finished.info1"],
    post_execute := fun _ _ => Except.ok none }

/-- What COLLECT followed by PERSIST guarantees for a workdir `w` the
engine collects from: a produced result value leads to workspace deletion
exactly when the keep override is off and to a persisted bundle carrying
that value, while a collect error escapes with no deletion and no
persistence. -/
def CollectSpec {ρ : Type} (cfg : Config) (env : Env ρ) (w : String) : Prop :=
  (∀ r : ρ, env.post_execute w (execArgs cfg) = Except.ok (some r) →
    ((cfg.dirty = false → Event.removeWorkdir w ∈ (executor cfg env).trace) ∧
     (cfg.dirty = true →
       ∀ p, Event.removeWorkdir p ∉ (executor cfg env).trace) ∧
     (∃ b : Bundle ρ,
       Event.writeCache (fileCacheOf cfg) b ∈ (executor cfg env).trace ∧
       b.results = some r))) ∧
  (∀ e, env.post_execute w (execArgs cfg) = Except.error e →
    ((executor cfg env).outcome = Except.error (ExecErr.collectError e) ∧
     (∀ p, Event.removeWorkdir p ∉ (executor cfg env).trace) ∧
     (∀ p b, Event.writeCache p b ∉ (executor cfg env).trace)))

/-- What PERSIST does when the collect hook at workdir `w` (reached with
the side effects `pre` already performed and the bundle `b` in hand)
returned the absence value: the engine still serializes the bundle —
result absent — under the computed signature, returns it through the
post-cache hook, and never removes the workspace. -/
def AbsentPersist {ρ : Type} (cfg : Config) (env : Env ρ) (w : String)
    (pre : List (Event ρ)) (b : Bundle ρ) : Prop :=
  executor cfg env =
    ⟨pre ++ [Event.collectHook w (execArgs cfg),
      Event.writeCache (fileCacheOf cfg) (finishBundle env w b none),
      Event.postCacheHook],
     Except.ok (env.post_cache (finishBundle env w b none))⟩ ∧
  (finishBundle env w b none).results = none ∧
  (∀ p, Event.removeWorkdir p ∉ (executor cfg env).trace) ∧
  Event.writeCache (fileCacheOf cfg) (finishBundle env w b none) ∈
    (executor cfg env).trace

/-- World whose scratch root is empty and whose collect hook yields the
absence value, exercising the staged-and-waited path. -/
def env10s : Env Nat :=
  { baseEnv with post_execute := fun _ _ => Except.ok none }

section OrderLemmas

theorem charListLeb_cons_iff (a b : Char) (as bs : List Char) :
    charListLeb (a :: as) (b :: bs) = true ↔
      a.toNat < b.toNat ∨ (a.toNat = b.toNat ∧ charListLeb as bs = true) := by
  by_cases h1 : a.toNat < b.toNat
  · simp [charListLeb, h1]
  · by_cases h2 : b.toNat < a.toNat
    · have hne : ¬ a.toNat = b.toNat := by omega
      simp [charListLeb, h1, h2, hne]
    · have heq : a.toNat = b.toNat := by omega
      simp [charListLeb, h1, h2, heq]

theorem charListLeb_total :
    ∀ as bs : List Char, charListLeb as bs = true ∨ charListLeb bs as = true
  | [], _ => Or.inl rfl
  | _ :: _, [] => Or.inr rfl
  | a :: as, b :: bs => by
    rw [charListLeb_cons_iff, charListLeb_cons_iff]
    by_cases h1 : a.toNat < b.toNat
    · exact Or.inl (Or.inl h1)
    · by_cases h2 : b.toNat < a.toNat
      · exact Or.inr (Or.inl h2)
      · rcases charListLeb_total as bs with h | h
        · exact Or.inl (Or.inr ⟨by omega, h⟩)
        · exact Or.inr (Or.inr ⟨by omega, h⟩)

theorem charListLeb_trans :
    ∀ as bs cs : List Char, charListLeb as bs = true →
      charListLeb bs cs = true → charListLeb as cs = true
  | [], _, _, _, _ => rfl
  | _ :: _, [], _, h, _ => absurd h (by simp [charListLeb])
  | _ :: _, _ :: _, [], _, h2 => absurd h2 (by simp [charListLeb])
  | a :: as, b :: bs, c :: cs, h1, h2 => by
    rw [charListLeb_cons_iff] at h1 h2 ⊢
    rcases h1 with h1 | ⟨h1e, h1r⟩
    · rcases h2 with h2 | ⟨h2e, h2r⟩
      · exact Or.inl (by omega)
      · exact Or.inl (by omega)
    · rcases h2 with h2 | ⟨h2e, h2r⟩
      · exact Or.inl (by omega)
      · exact Or.inr ⟨by omega, charListLeb_trans as bs cs h1r h2r⟩

theorem charListLeb_antisymm :
    ∀ as bs : List Char, charListLeb as bs = true →
      charListLeb bs as = true → as = bs
  | [], [], _, _ => rfl
  | [], _ :: _, _, h2 => absurd h2 (by simp [charListLeb])
  | _ :: _, [], h1, _ => absurd h1 (by simp [charListLeb])
  | a :: as, b :: bs, h1, h2 => by
    rw [charListLeb_cons_iff] at h1 h2
    rcases h1 with h1 | ⟨h1e, h1r⟩
    · rcases h2 with h2 | ⟨h2e, h2r⟩
      · exact absurd h2 (by omega)
      · exact absurd h1 (by omega)
    · rcases h2 with h2 | ⟨h2e, h2r⟩
      · exact absurd h2 (by omega)
      · have hc : a = b := Char.ext (UInt32.ext h1e)
        rw [hc, charListLeb_antisymm as bs h1r h2r]

theorem strLe_total (a b : String) : strLe a b ∨ strLe b a :=
  charListLeb_total a.data b.data

theorem strLe_trans {a b c : String} (h1 : strLe a b) (h2 : strLe b c) :
    strLe a c :=
  charListLeb_trans a.data b.data c.data h1 h2

theorem strLe_antisymm {a b : String} (h1 : strLe a b) (h2 : strLe b a) :
    a = b :=
  String.ext (charListLeb_antisymm a.data b.data h1 h2)

instance : IsTotal String strLe := ⟨strLe_total⟩

instance : IsTrans String strLe := ⟨fun _ _ _ => strLe_trans⟩

instance : IsAntisymm String strLe := ⟨fun _ _ => strLe_antisymm⟩

instance : IsTotal (String × Value) pairLe :=
  ⟨fun p q => strLe_total (encodePair p) (encodePair q)⟩

instance : IsTrans (String × Value) pairLe :=
  ⟨fun _ _ _ => strLe_trans⟩

end OrderLemmas

section SignatureLemmas

theorem sortedIds_eq_of_perm {d1 d2 : DistanceMatrix}
    (h : d1.ids.Perm d2.ids) : sortedIds d1 = sortedIds d2 :=
  List.eq_of_perm_of_sorted
    (((List.perm_insertionSort strLe d1.ids).trans h).trans
      (List.perm_insertionSort strLe d2.ids).symm)
    (List.sorted_insertionSort strLe d1.ids)
    (List.sorted_insertionSort strLe d2.ids)

theorem mem_sortedIds {d : DistanceMatrix} {i : String}
    (h : i ∈ sortedIds d) : i ∈ d.ids :=
  (List.perm_insertionSort strLe d.ids).mem_iff.mp h

theorem canonData_eq_of_equiv {d1 d2 : DistanceMatrix}
    (hperm : d1.ids.Perm d2.ids)
    (hdist : ∀ i ∈ d1.ids, ∀ j ∈ d1.ids, d1.get i j = d2.get i j) :
    canonData d1 = canonData d2 := by
  unfold canonData
  rw [← sortedIds_eq_of_perm hperm]
  apply List.map_congr_left
  intro i hi
  apply List.map_congr_left
  intro j hj
  exact hdist i (mem_sortedIds hi) j (mem_sortedIds hj)

theorem canonValue_eq_of_equiv {v w : Value} (h : ValEquiv v w) :
    canonValue v = canonValue w := by
  cases h with
  | refl v => rfl
  | dm d1 d2 hperm hdist =>
      simpa [canonValue] using canonData_eq_of_equiv hperm hdist

theorem hashedArgs_eq_of_forall₂ {c b : List (String × Value)}
    (h : List.Forall₂
      (fun p q : String × Value => p.1 = q.1 ∧ ValEquiv p.2 q.2) c b) :
    hashedArgs c = hashedArgs b := by
  induction h with
  | nil => rfl
  | cons hpq _ ih =>
      simp only [hashedArgs, List.map_cons] at ih ⊢
      rw [ih, hpq.1, canonValue_eq_of_equiv hpq.2]

theorem encodeItems_sortedItems_eq_of_perm {l1 l2 : List (String × Value)}
    (h : l1.Perm l2) :
    encodeItems (sortedItems l1) = encodeItems (sortedItems l2) := by
  have hp : (sortedItems l1).Perm (sortedItems l2) :=
    ((List.perm_insertionSort pairLe l1).trans h).trans
      (List.perm_insertionSort pairLe l2).symm
  have hs1 : List.Sorted strLe ((sortedItems l1).map encodePair) :=
    List.Pairwise.map encodePair (fun _ _ hr => hr)
      (List.sorted_insertionSort pairLe l1)
  have hs2 : List.Sorted strLe ((sortedItems l2).map encodePair) :=
    List.Pairwise.map encodePair (fun _ _ hr => hr)
      (List.sorted_insertionSort pairLe l2)
  have hme : (sortedItems l1).map encodePair = (sortedItems l2).map encodePair :=
    List.eq_of_perm_of_sorted (hp.map encodePair) hs1 hs2
  unfold encodeItems
  rw [hme]

end SignatureLemmas

section EngineLemmas

variable {ρ : Type}

theorem executor_cacheHit (cfg : Config) (env : Env ρ)
    (hc : env.cacheExists (fileCacheOf cfg) = true) (hn : cfg.nocache = false) :
    executor cfg env =
      ⟨[Event.postCacheHook],
       Except.ok (env.post_cache (env.cacheLoad (fileCacheOf cfg)))⟩ := by
  simp [executor, hc, hn]

theorem executor_gridErr (cfg : Config) (env : Env ρ)
    (hmiss : env.cacheExists (fileCacheOf cfg) = false ∨ cfg.nocache = true)
    (hg : cfg.use_grid = true) (hh : env.homeTmpExists = false) :
    executor cfg env =
      ⟨[], Except.error (ExecErr.valueError
        ("Temporary directory " ++ dirTmp cfg env ++
         " does not exist. Please create it and restart."))⟩ := by
  rcases hmiss with hm | hm <;> simp [executor, hm, hg, hh]

theorem executor_pending (cfg : Config) (env : Env ρ)
    (hmiss : env.cacheExists (fileCacheOf cfg) = false ∨ cfg.nocache = true)
    (hgrid : cfg.use_grid = false ∨ env.homeTmpExists = true)
    (hpot : potWorkdirs cfg env ≠ [])
    (hfin : finishedWorkdirs cfg env = []) :
    executor cfg env = ⟨[], Except.ok (pendingBundle cfg)⟩ := by
  have hlen : (potWorkdirs cfg env).length ≠ 0 := by
    simpa [List.length_eq_zero] using hpot
  rcases hmiss with hm | hm <;> rcases hgrid with hg | hg <;>
    simp [executor, hm, hg, hfin, hlen]

theorem executor_found (cfg : Config) (env : Env ρ)
    (hmiss : env.cacheExists (fileCacheOf cfg) = false ∨ cfg.nocache = true)
    (hgrid : cfg.use_grid = false ∨ env.homeTmpExists = true)
    (w : String) (ws : List String)
    (hfin : finishedWorkdirs cfg env = w :: ws) :
    executor cfg env =
      collectPhase cfg env w []
        { pendingBundle cfg with workdir := some w } := by
  rcases hmiss with hm | hm <;> rcases hgrid with hg | hg <;>
    simp [executor, hm, hg, hfin]

theorem finishedWorkdirs_nil_of_pot_nil (cfg : Config) (env : Env ρ)
    (hpot : potWorkdirs cfg env = []) : finishedWorkdirs cfg env = [] := by
  simp [finishedWorkdirs, hpot]

theorem executor_stage (cfg : Config) (env : Env ρ)
    (hmiss : env.cacheExists (fileCacheOf cfg) = false ∨ cfg.nocache = true)
    (hgrid : cfg.use_grid = false ∨ env.homeTmpExists = true)
    (hpot : potWorkdirs cfg env = []) :
    executor cfg env = stagePhase cfg env := by
  have hfin := finishedWorkdirs_nil_of_pot_nil cfg env hpot
  rcases hmiss with hm | hm <;> rcases hgrid with hg | hg <;>
    simp [executor, hm, hg, hpot, hfin]

theorem collectPhase_ok (cfg : Config) (env : Env ρ) (wd : String)
    (pre : List (Event ρ)) (b : Bundle ρ) (r : Option ρ)
    (hpost : env.post_execute wd (execArgs cfg) = Except.ok r) :
    collectPhase cfg env wd pre b =
      ⟨pre ++ [Event.collectHook wd (execArgs cfg)] ++
        (if r.isSome && !cfg.dirty then [Event.removeWorkdir wd] else []) ++
        [Event.writeCache (fileCacheOf cfg) (finishBundle env wd b r),
         Event.postCacheHook],
       Except.ok (env.post_cache (finishBundle env wd b r))⟩ := by
  simp [collectPhase, hpost]

theorem collectPhase_err (cfg : Config) (env : Env ρ) (wd : String)
    (pre : List (Event ρ)) (b : Bundle ρ) (e : String)
    (hpost : env.post_execute wd (execArgs cfg) = Except.error e) :
    collectPhase cfg env wd pre b =
      ⟨pre ++ [Event.collectHook wd (execArgs cfg)],
       Except.error (ExecErr.collectError e)⟩ := by
  simp [collectPhase, hpost]

theorem collectPhase_trace_structure (cfg : Config) (env : Env ρ)
    (wd : String) (pre : List (Event ρ)) (b : Bundle ρ) :
    ∀ e ∈ (collectPhase cfg env wd pre b).trace,
      e ∈ pre ∨ e = Event.collectHook wd (execArgs cfg) ∨
      e = Event.removeWorkdir wd ∨
      (∃ bb, e = Event.writeCache (fileCacheOf cfg) bb) ∨
      e = Event.postCacheHook := by
  intro e he
  unfold collectPhase at he
  cases hpost : env.post_execute wd (execArgs cfg) with
  | error er =>
      rw [hpost] at he
      simp only [List.mem_append, List.mem_singleton] at he
      rcases he with he | he
      · exact Or.inl he
      · exact Or.inr (Or.inl he)
  | ok r =>
      rw [hpost] at he
      simp only [List.mem_append] at he
      rcases he with ((he | he) | he) | he
      · exact Or.inl he
      · exact Or.inr (Or.inl (by simpa using he))
      · refine Or.inr (Or.inr (Or.inl ?_))
        cases hc : (r.isSome && !cfg.dirty) with
        | true => rw [hc] at he; simpa using he
        | false => rw [hc] at he; simp at he
      · simp only [List.mem_cons, List.mem_singleton] at he
        rcases he with he | he
        · exact Or.inr (Or.inr (Or.inr (Or.inl ⟨finishBundle env wd b r, he⟩)))
        · exact Or.inr (Or.inr (Or.inr (Or.inr (by simpa using he))))

theorem stagePhase_ok (cfg : Config) (env : Env ρ)
    (hpre : env.pre_execute (stageWorkdir cfg env) (execArgs cfg) =
      Except.ok ()) :
    stagePhase cfg env =
      (if cfg.dry then ⟨stageEvents cfg env, Except.ok (stagedBundle cfg env)⟩
       else if !cfg.wait then
         ⟨stageEvents cfg env, Except.ok (stagedBundle cfg env)⟩
       else
         collectPhase cfg env (stageWorkdir cfg env) (stageEvents cfg env)
           (stagedBundle cfg env)) := by
  simp [stagePhase, hpre]

theorem collectPhase_mem_collect (cfg : Config) (env : Env ρ) (wd : String)
    (pre : List (Event ρ)) (b : Bundle ρ) :
    Event.collectHook wd (execArgs cfg) ∈ (collectPhase cfg env wd pre b).trace := by
  cases hpost : env.post_execute wd (execArgs cfg) with
  | error er => simp [collectPhase, hpost]
  | ok r => simp [collectPhase, hpost]

theorem collectPhase_trace_append (cfg : Config) (env : Env ρ) (wd : String)
    (pre : List (Event ρ)) (b : Bundle ρ) :
    ∃ t, (collectPhase cfg env wd pre b).trace = pre ++ t := by
  cases hpost : env.post_execute wd (execArgs cfg) with
  | error er =>
      exact ⟨[Event.collectHook wd (execArgs cfg)],
        by simp [collectPhase, hpost]⟩
  | ok r =>
      exact ⟨[Event.collectHook wd (execArgs cfg)] ++
        (if r.isSome && !cfg.dirty then [Event.removeWorkdir wd] else []) ++
        [Event.writeCache (fileCacheOf cfg) (finishBundle env wd b r),
         Event.postCacheHook],
        by simp [collectPhase, hpost]⟩

theorem stagePhase_trace_prefix (cfg : Config) (env : Env ρ)
    (hpre : env.pre_execute (stageWorkdir cfg env) (execArgs cfg) =
      Except.ok ()) :
    ∃ t, (stagePhase cfg env).trace = stageEvents cfg env ++ t := by
  rw [stagePhase_ok cfg env hpre]
  by_cases hd : cfg.dry
  · exact ⟨[], by simp [hd]⟩
  · by_cases hw : cfg.wait
    · have := collectPhase_trace_append cfg env (stageWorkdir cfg env)
        (stageEvents cfg env) (stagedBundle cfg env)
      rcases this with ⟨t, ht⟩
      exact ⟨t, by simp [hd, hw, ht]⟩
    · exact ⟨[], by simp [hd, hw]⟩

theorem stageEvents_hookArgs (cfg : Config) (env : Env ρ) :
    ∀ e ∈ stageEvents cfg env, HookArgsOk cfg e := by
  intro e he
  simp only [stageEvents, List.mem_cons, List.mem_singleton,
    List.not_mem_nil, or_false] at he
  intro w a h
  rcases he with he | he | he | he | he <;> subst he <;>
    rcases h with h | h | h <;> simp_all

theorem collectPhase_hookArgs (cfg : Config) (env : Env ρ) (wd : String)
    (pre : List (Event ρ)) (b : Bundle ρ)
    (hpre : ∀ e ∈ pre, HookArgsOk cfg e) :
    ∀ e ∈ (collectPhase cfg env wd pre b).trace, HookArgsOk cfg e := by
  intro e he
  rcases collectPhase_trace_structure cfg env wd pre b e he with
    h | h | h | ⟨bb, h⟩ | h
  · exact hpre e h
  · subst h
    intro w a hcase
    rcases hcase with hc | hc | hc <;> simp_all
  · subst h
    intro w a hcase
    rcases hcase with hc | hc | hc <;> simp_all
  · subst h
    intro w a hcase
    rcases hcase with hc | hc | hc <;> simp_all
  · subst h
    intro w a hcase
    rcases hcase with hc | hc | hc <;> simp_all

theorem stagePhase_hookArgs (cfg : Config) (env : Env ρ) :
    ∀ e ∈ (stagePhase cfg env).trace, HookArgsOk cfg e := by
  intro e he
  unfold stagePhase at he
  cases hp : env.pre_execute (stageWorkdir cfg env) (execArgs cfg) with
  | error er =>
      rw [hp] at he
      simp only [List.mem_cons, List.mem_singleton, List.not_mem_nil,
        or_false] at he
      intro w a h
      rcases he with he | he | he <;> subst he <;>
        rcases h with h | h | h <;> simp_all
  | ok u =>
      rw [hp] at he
      by_cases hd : cfg.dry
      · simp only [hd, if_true] at he
        exact stageEvents_hookArgs cfg env e he
      · by_cases hw : cfg.wait
        · simp only [hd, hw, if_false, Bool.not_true, Bool.false_eq_true] at he
          exact collectPhase_hookArgs cfg env (stageWorkdir cfg env)
            (stageEvents cfg env) (stagedBundle cfg env)
            (stageEvents_hookArgs cfg env) e he
        · simp only [hd, hw, if_false, Bool.not_false, if_true,
            Bool.false_eq_true] at he
          exact stageEvents_hookArgs cfg env e he

theorem executor_hookArgs (cfg : Config) (env : Env ρ) :
    ∀ e ∈ (executor cfg env).trace, HookArgsOk cfg e := by
  intro e he
  unfold executor at he
  by_cases hc : env.cacheExists (fileCacheOf cfg) && !cfg.nocache
  · simp only [hc, if_true] at he
    simp only [List.mem_singleton] at he
    subst he
    intro w a h
    rcases h with h | h | h <;> simp_all
  · simp only [hc, Bool.false_eq_true, if_false] at he
    by_cases hg : cfg.use_grid && !env.homeTmpExists
    · simp only [hg, if_true] at he
      simp at he
    · simp only [hg, Bool.false_eq_true, if_false] at he
      by_cases hpf : ((potWorkdirs cfg env).length != 0) &&
          ((finishedWorkdirs cfg env).length == 0)
      · simp only [hpf, if_true] at he
        simp at he
      · simp only [hpf, Bool.false_eq_true, if_false] at he
        cases hfin : finishedWorkdirs cfg env with
        | nil =>
            rw [hfin] at he
            exact stagePhase_hookArgs cfg env e he
        | cons w ws =>
            rw [hfin] at he
            exact collectPhase_hookArgs cfg env w []
              { pendingBundle cfg with workdir := some w }
              (by intro x hx; simp at hx) e he

end EngineLemmas

section RestoreLemmas

theorem cacheArgsOriginal_cons (p : String × Value)
    (l : List (String × Value)) :
    cacheArgsOriginal (p :: l) =
      if p.2.isDM then p :: cacheArgsOriginal l else cacheArgsOriginal l := by
  by_cases h : p.2.isDM <;> simp [cacheArgsOriginal, h]

theorem find?_cacheArgsOriginal_eq_none (l : List (String × Value))
    (k : String) (hk : k ∉ l.map Prod.fst) :
    (cacheArgsOriginal l).find? (fun q => q.1 == k) = none := by
  apply List.find?_eq_none.mpr
  intro q hq
  have hql : q ∈ l := List.mem_of_mem_filter hq
  have : q.1 ∈ l.map Prod.fst := List.mem_map_of_mem Prod.fst hql
  simp only [beq_iff_eq]
  intro he
  exact hk (he ▸ this)

theorem canonValue_eq_self {v : Value} (h : v.isDM = false) :
    canonValue v = v := by
  cases v <;> first | rfl | simp [Value.isDM] at h

theorem restoreAfterHash_congr (orig1 orig2 cur : List (String × Value))
    (h : ∀ p ∈ cur, orig1.find? (fun q => q.1 == p.1) =
      orig2.find? (fun q => q.1 == p.1)) :
    restoreAfterHash orig1 cur = restoreAfterHash orig2 cur := by
  apply List.map_congr_left
  intro p hp
  unfold restoreOne
  rw [h p hp]

theorem keys_hashedArgs (l : List (String × Value)) :
    (hashedArgs l).map Prod.fst = l.map Prod.fst := by
  simp [hashedArgs]

theorem restore_roundtrip :
    ∀ l : List (String × Value), (l.map Prod.fst).Nodup →
      restoreAfterHash (cacheArgsOriginal l) (hashedArgs l) = l
  | [], _ => rfl
  | p :: l, hnd => by
    have hp1 : p.1 ∉ l.map Prod.fst := by
      simp only [List.map_cons, List.nodup_cons] at hnd
      exact hnd.1
    have hl : (l.map Prod.fst).Nodup := by
      simp only [List.map_cons, List.nodup_cons] at hnd
      exact hnd.2
    have htail : restoreAfterHash (cacheArgsOriginal (p :: l))
        (hashedArgs l) = restoreAfterHash (cacheArgsOriginal l)
        (hashedArgs l) := by
      apply restoreAfterHash_congr
      intro q hq
      have hq1 : q.1 ∈ l.map Prod.fst := by
        rw [← keys_hashedArgs l]
        exact List.mem_map_of_mem Prod.fst hq
      have hne : (p.1 == q.1) = false := by
        simp only [beq_eq_false_iff_ne, ne_eq]
        intro he
        exact hp1 (he ▸ hq1)
      rw [cacheArgsOriginal_cons]
      by_cases hdm : p.2.isDM
      · simp [hdm, List.find?, hne]
      · simp [hdm]
    have hhead : restoreOne (cacheArgsOriginal (p :: l))
        (p.1, canonValue p.2) = p := by
      rw [cacheArgsOriginal_cons]
      by_cases hdm : p.2.isDM
      · simp [hdm, restoreOne, List.find?]
      · have : (cacheArgsOriginal l).find? (fun q => q.1 == p.1) = none :=
          find?_cacheArgsOriginal_eq_none l p.1 hp1
        simp only [hdm, if_neg, Bool.false_eq_true, if_false]
        unfold restoreOne
        simp only [this]
        rw [canonValue_eq_self (by simpa using hdm)]
    calc restoreAfterHash (cacheArgsOriginal (p :: l)) (hashedArgs (p :: l))
        = restoreOne (cacheArgsOriginal (p :: l)) (p.1, canonValue p.2) ::
          restoreAfterHash (cacheArgsOriginal (p :: l)) (hashedArgs l) := rfl
      _ = p :: restoreAfterHash (cacheArgsOriginal l) (hashedArgs l) := by
          rw [hhead, htail]
      _ = p :: l := by rw [restore_roundtrip l hl]

theorem execArgs_eq (cfg : Config)
    (hnd : (cfg.cache_arguments.map Prod.fst).Nodup) :
    execArgs cfg = cfg.cache_arguments :=
  restore_roundtrip cfg.cache_arguments hnd

end RestoreLemmas

section Claims

/-- C1: for every two argument mappings that are permutations of the same
key/value pairs, or whose DistanceMatrix-typed values differ only in the
order of their ids (same content), the engine computes the same cache
signature, that is the same cache-file path hash dot step-name. -/
theorem signature_perm_invariant (jobname : String)
    (a b : List (String × Value)) (h : ArgsEquiv a b) :
    fileCache jobname a = fileCache jobname b := by
  obtain ⟨c, hac, hcb⟩ := h
  have h1 : (hashedArgs a).Perm (hashedArgs c) := by
    unfold hashedArgs
    exact hac.map _
  have h2 : hashedArgs c = hashedArgs b := hashedArgs_eq_of_forall₂ hcb
  have hperm : (hashedArgs a).Perm (hashedArgs b) := h2 ▸ h1
  unfold fileCache sigBasename
  rw [encodeItems_sortedItems_eq_of_perm hperm]

theorem signature_perm_invariant_witness :
    ArgsEquiv argsA argsB ∧ fileCache "j" argsA = fileCache "j" argsB := by
  have hequiv : ArgsEquiv argsA argsB := by
    refine ⟨argsC, by decide, ?_⟩
    refine List.Forall₂.cons
      ⟨rfl, ValEquiv.dm dmA dmB (by decide) (by decide)⟩ ?_
    exact List.Forall₂.cons ⟨rfl, ValEquiv.refl _⟩ List.Forall₂.nil
  exact ⟨hequiv, signature_perm_invariant "j" argsA argsB hequiv⟩

/-- C2: when the cache store holds a file for the computed signature and
caching is not disabled, the engine loads the persisted bundle, applies
the post-cache hook to it and returns it, creating no workspace and
invoking none of the stage, build-commands or collect hooks; identical
calls against a populated cache therefore return the same bundle and
never reach build-commands or collect again. -/
theorem cache_hit_short_circuit {ρ : Type} (cfg : Config) (env : Env ρ)
    (hc : env.cacheExists (fileCacheOf cfg) = true)
    (hn : cfg.nocache = false) :
    executor cfg env =
      ⟨[Event.postCacheHook],
       Except.ok (env.post_cache (env.cacheLoad (fileCacheOf cfg)))⟩ ∧
    (∀ w a, Event.stageHook w a ∉ (executor cfg env).trace) ∧
    (∀ w a, Event.buildCommandsHook w a ∉ (executor cfg env).trace) ∧
    (∀ w a, Event.collectHook w a ∉ (executor cfg env).trace) ∧
    (∀ p, Event.createWorkdir p ∉ (executor cfg env).trace) := by
  have he := executor_cacheHit cfg env hc hn
  refine ⟨he, ?_, ?_, ?_, ?_⟩
  · intro w a hm
    rw [he] at hm
    simp at hm
  · intro w a hm
    rw [he] at hm
    simp at hm
  · intro w a hm
    rw [he] at hm
    simp at hm
  · intro p hm
    rw [he] at hm
    simp at hm

theorem cache_hit_short_circuit_witness :
    (env2w.cacheExists (fileCacheOf cfg2w) = true ∧ cfg2w.nocache = false) ∧
    executor cfg2w env2w =
      ⟨[Event.postCacheHook],
       Except.ok (env2w.post_cache (env2w.cacheLoad (fileCacheOf cfg2w)))⟩ :=
  ⟨⟨rfl, rfl⟩, (cache_hit_short_circuit cfg2w env2w rfl rfl).1⟩

/-- C3: a call that reaches discovery and finds at least one scratch
directory carrying the current identity marker but none with all shard
completion markers returns immediately with the pending bundle (result
absent), raising no error, creating no workspace, invoking no hook and
submitting nothing (its trace is empty). -/
theorem pending_discovery_no_side_effects {ρ : Type} (cfg : Config)
    (env : Env ρ)
    (hmiss : env.cacheExists (fileCacheOf cfg) = false ∨ cfg.nocache = true)
    (hgrid : cfg.use_grid = false ∨ env.homeTmpExists = true)
    (hpot : potWorkdirs cfg env ≠ [])
    (hfin : finishedWorkdirs cfg env = []) :
    executor cfg env = ⟨[], Except.ok (pendingBundle cfg)⟩ ∧
    (pendingBundle cfg : Bundle ρ).results = none :=
  ⟨executor_pending cfg env hmiss hgrid hpot hfin, rfl⟩

theorem pending_discovery_no_side_effects_witness :
    ((env3w.cacheExists (fileCacheOf cfg3w) = false ∨ cfg3w.nocache = true) ∧
     (cfg3w.use_grid = false ∨ env3w.homeTmpExists = true) ∧
     potWorkdirs cfg3w env3w ≠ [] ∧
     finishedWorkdirs cfg3w env3w = []) ∧
    executor cfg3w env3w = ⟨[], Except.ok (pendingBundle cfg3w)⟩ :=
  ⟨⟨Or.inr rfl, Or.inl rfl, by decide, by decide⟩,
   (pending_discovery_no_side_effects cfg3w env3w (Or.inr rfl) (Or.inl rfl)
     (by decide) (by decide)).1⟩

/-- C4: a candidate workdir is judged finished exactly when the files
named by the completion prefix followed by each shard index 1..N all
exist in it; and faced with an unrelated directory, a marker-bearing but
incomplete directory and a marker-bearing complete directory, the engine
adopts the complete one exclusively and proceeds to collect, submitting
nothing and creating no workspace. -/
theorem discovery_completion_and_adoption {ρ : Type} (cfg : Config)
    (env : Env ρ)
    (hmiss : env.cacheExists (fileCacheOf cfg) = false ∨ cfg.nocache = true)
    (hgrid : cfg.use_grid = false ∨ env.homeTmpExists = true)
    (u bdir cdir : String)
    (hsub : env.tmpSubdirs = [u, bdir, cdir])
    (hu : strStartsWith u ("ana_" ++ cfg.jobname ++ "_") = false ∨
      (env.filesIn (pathJoin (dirTmp cfg env) u)).contains (sigBase cfg)
        = false)
    (hbp : strStartsWith bdir ("ana_" ++ cfg.jobname ++ "_") = true)
    (hbm : (env.filesIn (pathJoin (dirTmp cfg env) bdir)).contains
      (sigBase cfg) = true)
    (hbi : allFinished env cfg.array (pathJoin (dirTmp cfg env) bdir)
      = false)
    (hcp : strStartsWith cdir ("ana_" ++ cfg.jobname ++ "_") = true)
    (hcm : (env.filesIn (pathJoin (dirTmp cfg env) cdir)).contains
      (sigBase cfg) = true)
    (hcf : allFinished env cfg.array (pathJoin (dirTmp cfg env) cdir)
      = true) :
    (∀ wd, wd ∈ finishedWorkdirs cfg env ↔
      (wd ∈ potWorkdirs cfg env ∧ ∀ i, 1 ≤ i → i ≤ cfg.array →
        (env.filesIn wd).contains (FILE_STATUS ++ toString i) = true)) ∧
    finishedWorkdirs cfg env = [pathJoin (dirTmp cfg env) cdir] ∧
    Event.collectHook (pathJoin (dirTmp cfg env) cdir) (execArgs cfg) ∈
      (executor cfg env).trace ∧
    (∀ l d wt n, Event.submit l d wt n ∉ (executor cfg env).trace) ∧
    (∀ p, Event.createWorkdir p ∉ (executor cfg env).trace) := by
  have hiff : ∀ wd, wd ∈ finishedWorkdirs cfg env ↔
      (wd ∈ potWorkdirs cfg env ∧ ∀ i, 1 ≤ i → i ≤ cfg.array →
        (env.filesIn wd).contains (FILE_STATUS ++ toString i) = true) := by
    intro wd
    unfold finishedWorkdirs
    rw [List.mem_filter]
    constructor
    · rintro ⟨hp, hall⟩
      refine ⟨hp, ?_⟩
      intro i h1 h2
      unfold allFinished at hall
      rw [List.all_eq_true] at hall
      have := hall (i - 1) (by rw [List.mem_range]; omega)
      simpa [show i - 1 + 1 = i by omega] using this
    · rintro ⟨hp, hall⟩
      refine ⟨hp, ?_⟩
      unfold allFinished
      rw [List.all_eq_true]
      intro x hx
      rw [List.mem_range] at hx
      exact hall (x + 1) (by omega) (by omega)
  have hcondu : (strStartsWith u ("ana_" ++ cfg.jobname ++ "_") &&
      (env.filesIn (pathJoin (dirTmp cfg env) u)).contains (sigBase cfg))
      = false := by
    rcases hu with h | h
    · rw [h, Bool.false_and]
    · rw [h, Bool.and_false]
  have hcondb : (strStartsWith bdir ("ana_" ++ cfg.jobname ++ "_") &&
      (env.filesIn (pathJoin (dirTmp cfg env) bdir)).contains (sigBase cfg))
      = true := by
    rw [hbp, hbm]
    rfl
  have hcondc : (strStartsWith cdir ("ana_" ++ cfg.jobname ++ "_") &&
      (env.filesIn (pathJoin (dirTmp cfg env) cdir)).contains (sigBase cfg))
      = true := by
    rw [hcp, hcm]
    rfl
  have hpots : potWorkdirs cfg env =
      [pathJoin (dirTmp cfg env) bdir, pathJoin (dirTmp cfg env) cdir] := by
    unfold potWorkdirs
    rw [hsub, List.filter_cons, List.filter_cons, List.filter_cons,
      List.filter_nil, hcondu, hcondb, hcondc]
    simp
  have hfins : finishedWorkdirs cfg env =
      [pathJoin (dirTmp cfg env) cdir] := by
    simp [finishedWorkdirs, hpots, hbi, hcf]
  have hexec := executor_found cfg env hmiss hgrid _ _ hfins
  refine ⟨hiff, hfins, ?_, ?_, ?_⟩
  · rw [hexec]
    exact collectPhase_mem_collect cfg env _ _ _
  · intro l d wt n hm
    rw [hexec] at hm
    rcases collectPhase_trace_structure cfg env _ _ _ _ hm with
      h | h | h | ⟨bb, h⟩ | h <;> simp at h
  · intro p hm
    rw [hexec] at hm
    rcases collectPhase_trace_structure cfg env _ _ _ _ hm with
      h | h | h | ⟨bb, h⟩ | h <;> simp at h

theorem discovery_completion_and_adoption_witness :
    (env4w.tmpSubdirs = ["other", "ana_j_b", "ana_j_c"] ∧
     strStartsWith "other" ("ana_" ++ cfg4w.jobname ++ "_") = false ∧
     allFinished env4w cfg4w.array
       (pathJoin (dirTmp cfg4w env4w) "ana_j_b") = false ∧
     allFinished env4w cfg4w.array
       (pathJoin (dirTmp cfg4w env4w) "ana_j_c") = true) ∧
    (finishedWorkdirs cfg4w env4w =
       [pathJoin (dirTmp cfg4w env4w) "ana_j_c"] ∧
     Event.collectHook (pathJoin (dirTmp cfg4w env4w) "ana_j_c")
       (execArgs cfg4w) ∈ (executor cfg4w env4w).trace) := by
  have h := discovery_completion_and_adoption cfg4w env4w (Or.inr rfl)
    (Or.inl rfl) "other" "ana_j_b" "ana_j_c" rfl (Or.inl (by decide))
    (by decide) (by decide) (by decide) (by decide) (by decide) (by decide)
  exact ⟨⟨rfl, by decide, by decide, by decide⟩, ⟨h.2.1, h.2.2.1⟩⟩

/-- C5: after a collect that produced a result value the engine deletes
the workspace unless the keep override (dirty) is set and then serializes
the bundle under the computed signature in the cache store; if the collect
hook raises, the workspace is not deleted and nothing is persisted. This
holds on both ways the engine reaches collect: an adopted complete
workdir, and a staged workdir waited for. -/
theorem collect_persist_delete {ρ : Type} (cfg : Config) (env : Env ρ)
    (hmiss : env.cacheExists (fileCacheOf cfg) = false ∨ cfg.nocache = true)
    (hgrid : cfg.use_grid = false ∨ env.homeTmpExists = true) :
    (∀ w ws, finishedWorkdirs cfg env = w :: ws → CollectSpec cfg env w) ∧
    (potWorkdirs cfg env = [] →
      env.pre_execute (stageWorkdir cfg env) (execArgs cfg) = Except.ok () →
      cfg.dry = false → cfg.wait = true →
      CollectSpec cfg env (stageWorkdir cfg env)) := by
  constructor
  · intro w ws hfin
    have hexec := executor_found cfg env hmiss hgrid w ws hfin
    constructor
    · intro r hpost
      have hph := collectPhase_ok cfg env w []
        { pendingBundle cfg with workdir := some w } (some r) hpost
      refine ⟨?_, ?_, ?_⟩
      · intro hdirty
        rw [hexec, hph]
        simp [hdirty]
      · intro hdirty p hm
        rw [hexec, hph] at hm
        simp [hdirty] at hm
      · refine ⟨finishBundle env w
          { pendingBundle cfg with workdir := some w } (some r), ?_, rfl⟩
        rw [hexec, hph]
        simp
    · intro e hpost
      have hph := collectPhase_err cfg env w []
        { pendingBundle cfg with workdir := some w } e hpost
      refine ⟨?_, ?_, ?_⟩
      · rw [hexec, hph]
      · intro p hm
        rw [hexec, hph] at hm
        simp at hm
      · intro p b hm
        rw [hexec, hph] at hm
        simp at hm
  · intro hpot hpre hdry hwait
    have hexec : executor cfg env =
        collectPhase cfg env (stageWorkdir cfg env) (stageEvents cfg env)
          (stagedBundle cfg env) := by
      rw [executor_stage cfg env hmiss hgrid hpot,
        stagePhase_ok cfg env hpre]
      simp [hdry, hwait]
    constructor
    · intro r hpost
      have hph := collectPhase_ok cfg env (stageWorkdir cfg env)
        (stageEvents cfg env) (stagedBundle cfg env) (some r) hpost
      refine ⟨?_, ?_, ?_⟩
      · intro hdirty
        rw [hexec, hph]
        simp [hdirty]
      · intro hdirty p hm
        rw [hexec, hph] at hm
        simp [hdirty, stageEvents] at hm
      · refine ⟨finishBundle env (stageWorkdir cfg env)
          (stagedBundle cfg env) (some r), ?_, rfl⟩
        rw [hexec, hph]
        simp
    · intro e hpost
      have hph := collectPhase_err cfg env (stageWorkdir cfg env)
        (stageEvents cfg env) (stagedBundle cfg env) e hpost
      refine ⟨?_, ?_, ?_⟩
      · rw [hexec, hph]
      · intro p hm
        rw [hexec, hph] at hm
        simp [stageEvents] at hm
      · intro p b hm
        rw [hexec, hph] at hm
        simp [stageEvents] at hm

theorem collect_persist_delete_witness :
    ((env5w.cacheExists (fileCacheOf cfg5w) = false ∨ cfg5w.nocache = true) ∧
     finishedWorkdirs cfg5w env5w = ["/tmp/ana_j_d"]) ∧
    CollectSpec cfg5w env5w "/tmp/ana_j_d" :=
  ⟨⟨Or.inr rfl, by decide⟩,
   (collect_persist_delete cfg5w env5w (Or.inr rfl) (Or.inl rfl)).1
     "/tmp/ana_j_d" [] (by decide)⟩

/-- C6 counterexample: with grid execution configured and the discovery
root missing on disk but the cache store populated, the engine completes
normally with the cached bundle (trace is just the post-cache hook), so
the fatal configuration error is not raised immediately, and in
particular not before consulting the cache store. -/
theorem grid_root_check_after_cache_cex :
    cfgC6.use_grid = true ∧ envC6.homeTmpExists = false ∧
    envC6.cacheExists (fileCacheOf cfgC6) = true ∧
    (executor cfgC6 envC6).outcome = Except.ok loadedBundle ∧
    (executor cfgC6 envC6).trace = [Event.postCacheHook] :=
  ⟨rfl, rfl, rfl, rfl, rfl⟩

/-- C6 (amended): when grid execution is configured and the discovery
root does not exist on disk, the engine raises the fatal configuration
error only on the cache-miss path — after computing the signature and
consulting the cache store — and before any discovery, staging or hook
work (its trace is empty); a cache hit bypasses the check entirely. -/
theorem grid_root_missing_raises_on_miss {ρ : Type} (cfg : Config)
    (env : Env ρ)
    (hmiss : env.cacheExists (fileCacheOf cfg) = false ∨ cfg.nocache = true)
    (hg : cfg.use_grid = true) (hh : env.homeTmpExists = false) :
    executor cfg env =
      ⟨[], Except.error (ExecErr.valueError
        ("Temporary directory " ++ dirTmp cfg env ++
         " does not exist. Please create it and restart."))⟩ :=
  executor_gridErr cfg env hmiss hg hh

theorem grid_root_missing_raises_on_miss_witness :
    ((env6w.cacheExists (fileCacheOf cfg6w) = false ∨ cfg6w.nocache = true) ∧
     cfg6w.use_grid = true ∧ env6w.homeTmpExists = false) ∧
    executor cfg6w env6w =
      ⟨[], Except.error (ExecErr.valueError
        ("Temporary directory " ++ dirTmp cfg6w env6w ++
         " does not exist. Please create it and restart."))⟩ :=
  ⟨⟨Or.inr rfl, rfl, rfl⟩,
   grid_root_missing_raises_on_miss cfg6w env6w (Or.inr rfl) rfl rfl⟩

/-- C7 counterexample: with two shards, the command list handed to the
submission collaborator holds the single hook command plus exactly one
completion-marker command, not one marker command per shard: its length
is the hook commands plus one, not plus the shard count. -/
theorem single_marker_append_cex :
    cfgC7.array = 2 ∧
    submittedCmdsOf (executor cfgC7 baseEnv) =
      some ["echo hi", markerCmd "/tmp/ana_j_xyz"] ∧
    (["echo hi", markerCmd "/tmp/ana_j_xyz"] : List String).length ≠
      (["echo hi"] : List String).length + cfgC7.array := by
  refine ⟨rfl, by decide, by decide⟩

/-- C7 (amended): on the stage path (no cached entry, no discovered
workdir) the engine creates a fresh workspace, writes the identity
marker, invokes the stage hook, invokes build-commands, appends exactly
one completion-marker-writing command — templated over the scheduler's
array id so that each shard writes its own marker at run time — and
calls the submission collaborator with the resulting list. -/
theorem stage_path_structure {ρ : Type} (cfg : Config) (env : Env ρ)
    (hmiss : env.cacheExists (fileCacheOf cfg) = false ∨ cfg.nocache = true)
    (hgrid : cfg.use_grid = false ∨ env.homeTmpExists = true)
    (hpot : potWorkdirs cfg env = [])
    (hpre : env.pre_execute (stageWorkdir cfg env) (execArgs cfg) =
      Except.ok ()) :
    (∃ t, (executor cfg env).trace = stageEvents cfg env ++ t) ∧
    stagedCmds cfg env =
      env.commands (stageWorkdir cfg env) cfg.ppn (execArgs cfg) ++
        [markerCmd (stageWorkdir cfg env)] ∧
    Event.createWorkdir (stageWorkdir cfg env) ∈ (executor cfg env).trace ∧
    Event.writeSigMarker (stageWorkdir cfg env) (sigBase cfg) ∈
      (executor cfg env).trace ∧
    Event.stageHook (stageWorkdir cfg env) (execArgs cfg) ∈
      (executor cfg env).trace ∧
    Event.buildCommandsHook (stageWorkdir cfg env) (execArgs cfg) ∈
      (executor cfg env).trace ∧
    Event.submit (stagedCmds cfg env) cfg.dry cfg.wait cfg.array ∈
      (executor cfg env).trace := by
  have hexec := executor_stage cfg env hmiss hgrid hpot
  have hpref : ∃ t, (executor cfg env).trace = stageEvents cfg env ++ t := by
    rw [hexec]
    exact stagePhase_trace_prefix cfg env hpre
  obtain ⟨t, ht⟩ := hpref
  have hmem : ∀ e ∈ stageEvents cfg env, e ∈ (executor cfg env).trace := by
    intro e he
    rw [ht]
    exact List.mem_append_left t he
  refine ⟨⟨t, ht⟩, rfl, ?_, ?_, ?_, ?_, ?_⟩ <;>
    apply hmem <;> simp [stageEvents]

theorem stage_path_structure_witness :
    (potWorkdirs cfg7w baseEnv = [] ∧
     baseEnv.pre_execute (stageWorkdir cfg7w baseEnv) (execArgs cfg7w) =
       Except.ok ()) ∧
    Event.submit (stagedCmds cfg7w baseEnv) cfg7w.dry cfg7w.wait cfg7w.array
      ∈ (executor cfg7w baseEnv).trace :=
  ⟨⟨rfl, rfl⟩,
   (stage_path_structure cfg7w baseEnv (Or.inr rfl) (Or.inl rfl) rfl
     rfl).2.2.2.2.2.2⟩

/-- C8: a call that reaches SUBMIT with the dry-run flag set, or with the
wait flag unset, returns immediately after submission: the collect hook
is not invoked, no cache entry is written, the workspace is retained
(never removed), and the no-wait return carries the collaborator's job id
in the bundle. -/
theorem submit_dry_nowait_frame {ρ : Type} (cfg : Config) (env : Env ρ)
    (hmiss : env.cacheExists (fileCacheOf cfg) = false ∨ cfg.nocache = true)
    (hgrid : cfg.use_grid = false ∨ env.homeTmpExists = true)
    (hpot : potWorkdirs cfg env = [])
    (hpre : env.pre_execute (stageWorkdir cfg env) (execArgs cfg) =
      Except.ok ())
    (hdw : cfg.dry = true ∨ cfg.wait = false) :
    executor cfg env =
      ⟨stageEvents cfg env, Except.ok (stagedBundle cfg env)⟩ ∧
    (∀ w a, Event.collectHook w a ∉ (executor cfg env).trace) ∧
    (∀ p b, Event.writeCache p b ∉ (executor cfg env).trace) ∧
    (∀ p, Event.removeWorkdir p ∉ (executor cfg env).trace) ∧
    (stagedBundle cfg env : Bundle ρ).workdir =
      some (stageWorkdir cfg env) ∧
    (cfg.dry = false → (stagedBundle cfg env : Bundle ρ).qid =
      env.clusterQid) := by
  have hexec : executor cfg env =
      ⟨stageEvents cfg env, Except.ok (stagedBundle cfg env)⟩ := by
    rw [executor_stage cfg env hmiss hgrid hpot, stagePhase_ok cfg env hpre]
    rcases hdw with hd | hw
    · simp [hd]
    · by_cases hd : cfg.dry
      · simp [hd]
      · simp [hd, hw]
  refine ⟨hexec, ?_, ?_, ?_, rfl, ?_⟩
  · intro w a hm
    rw [hexec] at hm
    simp [stageEvents] at hm
  · intro p b hm
    rw [hexec] at hm
    simp [stageEvents] at hm
  · intro p hm
    rw [hexec] at hm
    simp [stageEvents] at hm
  · intro hd
    simp [stagedBundle, clusterRunModel, hd]

theorem submit_dry_nowait_frame_witness :
    (potWorkdirs cfg8w baseEnv = [] ∧ cfg8w.wait = false ∧
     cfg8w.dry = false) ∧
    executor cfg8w baseEnv =
      ⟨stageEvents cfg8w baseEnv, Except.ok (stagedBundle cfg8w baseEnv)⟩ ∧
    (stagedBundle cfg8w baseEnv).qid = baseEnv.clusterQid := by
  have h := submit_dry_nowait_frame cfg8w baseEnv (Or.inr rfl) (Or.inl rfl)
    rfl rfl (Or.inr rfl)
  exact ⟨⟨rfl, rfl, rfl⟩, h.1, h.2.2.2.2.2 rfl⟩

/-- C9: canonicalizing matrix-like argument values for hashing does not
change the argument mapping seen by the hooks: after signature
computation every argument holds its original value again (the
converted-back mapping equals the caller's mapping), and every stage,
build-commands or collect hook invocation in the trace carries exactly
the original values. -/
theorem hooks_receive_original_arguments {ρ : Type} (cfg : Config)
    (env : Env ρ)
    (hnd : (cfg.cache_arguments.map Prod.fst).Nodup) :
    execArgs cfg = cfg.cache_arguments ∧
    ∀ e ∈ (executor cfg env).trace, ∀ w a,
      (e = Event.stageHook w a ∨ e = Event.buildCommandsHook w a ∨
        e = Event.collectHook w a) → a = cfg.cache_arguments := by
  have hre := execArgs_eq cfg hnd
  refine ⟨hre, ?_⟩
  intro e he w a h
  rw [← hre]
  exact executor_hookArgs cfg env e he w a h

theorem hooks_receive_original_arguments_witness :
    (cfgBase.cache_arguments.map Prod.fst).Nodup ∧
    execArgs cfgBase = cfgBase.cache_arguments :=
  ⟨by decide,
   (hooks_receive_original_arguments cfgBase baseEnv (by decide)).1⟩

/-- C10: when the collect hook returns the absence value on the wait path
or on the found-complete path, the engine still serializes the bundle —
with an absent result value — under the computed signature while leaving
the workspace undeleted, and any later identical call with caching
enabled against a store holding that signature short-circuits at the
cache, re-running no hook beyond post-cache. -/
theorem absent_result_cached {ρ : Type} (cfg : Config) (env : Env ρ)
    (hmiss : env.cacheExists (fileCacheOf cfg) = false ∨ cfg.nocache = true)
    (hgrid : cfg.use_grid = false ∨ env.homeTmpExists = true) :
    (∀ w ws, finishedWorkdirs cfg env = w :: ws →
      env.post_execute w (execArgs cfg) = Except.ok none →
      AbsentPersist cfg env w []
        { pendingBundle cfg with workdir := some w }) ∧
    (potWorkdirs cfg env = [] →
      env.pre_execute (stageWorkdir cfg env) (execArgs cfg) =
        Except.ok () →
      cfg.dry = false → cfg.wait = true →
      env.post_execute (stageWorkdir cfg env) (execArgs cfg) =
        Except.ok none →
      AbsentPersist cfg env (stageWorkdir cfg env) (stageEvents cfg env)
        (stagedBundle cfg env)) ∧
    (∀ env2 : Env ρ, env2.cacheExists (fileCacheOf cfg) = true →
      cfg.nocache = false →
      executor cfg env2 =
        ⟨[Event.postCacheHook],
         Except.ok (env2.post_cache (env2.cacheLoad (fileCacheOf cfg)))⟩) := by
  refine ⟨?_, ?_, ?_⟩
  · intro w ws hfin hpost
    have hexec : executor cfg env =
        ⟨[] ++ [Event.collectHook w (execArgs cfg),
          Event.writeCache (fileCacheOf cfg)
            (finishBundle env w
              { pendingBundle cfg with workdir := some w } none),
          Event.postCacheHook],
         Except.ok (env.post_cache
           (finishBundle env w
             { pendingBundle cfg with workdir := some w } none))⟩ := by
      rw [executor_found cfg env hmiss hgrid w ws hfin,
        collectPhase_ok cfg env w [] _ none hpost]
      simp
    refine ⟨hexec, rfl, ?_, ?_⟩
    · intro p hm
      rw [hexec] at hm
      simp at hm
    · rw [hexec]
      simp
  · intro hpot hpre hdry hwait hpost
    have hstage : executor cfg env =
        collectPhase cfg env (stageWorkdir cfg env) (stageEvents cfg env)
          (stagedBundle cfg env) := by
      rw [executor_stage cfg env hmiss hgrid hpot,
        stagePhase_ok cfg env hpre]
      simp [hdry, hwait]
    have hexec : executor cfg env =
        ⟨stageEvents cfg env ++
          [Event.collectHook (stageWorkdir cfg env) (execArgs cfg),
           Event.writeCache (fileCacheOf cfg)
             (finishBundle env (stageWorkdir cfg env)
               (stagedBundle cfg env) none),
           Event.postCacheHook],
         Except.ok (env.post_cache
           (finishBundle env (stageWorkdir cfg env)
             (stagedBundle cfg env) none))⟩ := by
      rw [hstage, collectPhase_ok cfg env (stageWorkdir cfg env)
        (stageEvents cfg env) (stagedBundle cfg env) none hpost]
      simp
    refine ⟨hexec, rfl, ?_, ?_⟩
    · intro p hm
      rw [hexec] at hm
      simp [stageEvents] at hm
    · rw [hexec]
      simp
  · intro env2 hc hn
    exact executor_cacheHit cfg env2 hc hn

theorem absent_result_cached_witness :
    (finishedWorkdirs cfg10w env10w = ["/tmp/ana_j_d"] ∧
     env10w.post_execute "/tmp/ana_j_d" (execArgs cfg10w) =
       Except.ok none ∧
     potWorkdirs cfg10w env10s = [] ∧
     env10s.post_execute (stageWorkdir cfg10w env10s) (execArgs cfg10w) =
       Except.ok none ∧
     cfg10w.dry = false ∧ cfg10w.wait = true ∧ cfg10w.nocache = false) ∧
    AbsentPersist cfg10w env10w "/tmp/ana_j_d" []
      { pendingBundle cfg10w with workdir := some "/tmp/ana_j_d" } ∧
    AbsentPersist cfg10w env10s (stageWorkdir cfg10w env10s)
      (stageEvents cfg10w env10s) (stagedBundle cfg10w env10s) := by
  have hfound := (absent_result_cached cfg10w env10w (Or.inl rfl)
    (Or.inl rfl)).1 "/tmp/ana_j_d" [] (by decide) rfl
  have hstaged := (absent_result_cached cfg10w env10s (Or.inl rfl)
    (Or.inl rfl)).2.1 rfl rfl rfl rfl rfl
  exact ⟨⟨by decide, rfl, rfl, rfl, rfl, rfl, rfl⟩, hfound, hstaged⟩

end Claims

end GGMap
